import Mathlib

/-!
Shallow embedding of the HTTP server in `src/http.rs` and `src/main.rs` of
Stef16Robbe/codecrafters-http-server-rust.

Rust strings are Lean `String`s; `str::split(c)`, `str::split_once(sep)` and
`str::len()` (UTF-8 byte length) are re-implemented by structural recursion on
the underlying character list so that all definitions reduce in the kernel.
`std::collections::HashMap<String, String>` is modelled as an association list
with replace-on-insert (`hmInsert`) and first-match lookup (`hmGet`), which is
exactly the observable behaviour of `HashMap::insert`/`HashMap::get`; the
iteration order used when serializing a response is the list order of this
model (the Rust iteration order is arbitrary and not part of any contract).
Filesystem access is abstracted as a `FileStore` value; a Rust `panic!`
(from `unwrap`/`expect`) is the `crash` constructor of `HandlerOut`.
-/

/-- `str::split(c)` from Rust, on character lists: splitting always yields at
least one (possibly empty) piece; `"".split(c)` yields `[""]`. -/
def splitCharList (c : Char) : List Char → List (List Char)
  | [] => [[]]
  | x :: xs =>
    if x = c then
      [] :: splitCharList c xs
    else
      match splitCharList c xs with
      | [] => [[x]]
      | l :: ls => (x :: l) :: ls

/-- `str::split(c)` from Rust, packaged on `String`. -/
def splitChar (c : Char) (s : String) : List String :=
  (splitCharList c s.data).map (fun l => String.mk l)

/-- Strip `pre` from the front of `l`, if it is a prefix of `l`. -/
def stripFront : List Char → List Char → Option (List Char)
  | [], rest => some rest
  | _ :: _, [] => none
  | p :: ps, x :: xs => if x = p then stripFront ps xs else none

/-- `str::split_once(sep)` from Rust, on character lists: split at the first
occurrence of `sep`, `none` when `sep` does not occur. -/
def splitOnceList (sep : List Char) : List Char → Option (List Char × List Char)
  | [] =>
    match stripFront sep [] with
    | some rest => some ([], rest)
    | none => none
  | x :: xs =>
    match stripFront sep (x :: xs) with
    | some rest => some ([], rest)
    | none => (splitOnceList sep xs).map (fun p => (x :: p.1, p.2))

/-- `str::split_once(sep)` from Rust, packaged on `String`. -/
def splitOnce (sep s : String) : Option (String × String) :=
  (splitOnceList sep.data s.data).map (fun p => (String.mk p.1, String.mk p.2))

/-- `str::starts_with(p)` from Rust. -/
def strStarts (s p : String) : Bool :=
  (stripFront p.data s.data).isSome

/-- UTF-8 byte length of a character list (what Rust `str::len()` counts). -/
def utf8LenList : List Char → Nat
  | [] => 0
  | c :: cs => c.utf8Size + utf8LenList cs

/-- Rust `str::len()`: the UTF-8 byte length of the string. -/
def utf8Len (s : String) : Nat := utf8LenList s.data

/-- The model of `HashMap<String, String>`. -/
abbrev HMap := List (String × String)

/-- `HashMap::get`: the value of the (unique) entry with key `k`. -/
def hmGet : HMap → String → Option String
  | [], _ => none
  | (k', v) :: m, k => if k = k' then some v else hmGet m k

/-- `HashMap::insert`: replace the value of an existing entry for `k`, or add a
new entry. -/
def hmInsert : HMap → String → String → HMap
  | [], k, v => [(k, v)]
  | (k', v') :: m, k, v =>
    if k' = k then (k, v) :: m else (k', v') :: hmInsert m k v

/-- `HashMap::from_iter` / `collect()`: insert the pairs left to right. -/
def hmFromList (pairs : List (String × String)) : HMap :=
  pairs.foldl (fun m kv => hmInsert m kv.1 kv.2) []

/- ----------------------------------------------------------------- -/
/- The message model (`src/http.rs`).                                -/
/- ----------------------------------------------------------------- -/

/-- `enum HttpMethod` from `src/http.rs`. -/
inductive HttpMethod where
  | Get | Post | Put | Patch | Delete | Connect | Head | Options | Trace
  | NotImp
  deriving DecidableEq, Repr

/-- `impl From<&str> for HttpMethod` from `src/http.rs`: match on the closed
set of verb tokens, anything else maps to `NotImp`. -/
def HttpMethod.fromStr (method : String) : HttpMethod :=
  if method = "GET" then .Get
  else if method = "POST" then .Post
  else if method = "PUT" then .Put
  else if method = "PATCH" then .Patch
  else if method = "DELETE" then .Delete
  else if method = "CONNECT" then .Connect
  else if method = "HEAD" then .Head
  else if method = "OPTIONS" then .Options
  else if method = "TRACE" then .Trace
  else .NotImp

/-- `enum HttpVersion` from `src/http.rs`. -/
inductive HttpVersion where
  | Http10 | Http11 | Http20 | Unknown
  deriving DecidableEq, Repr

/-- `impl From<&str> for HttpVersion` from `src/http.rs`. -/
def HttpVersion.fromStr (version : String) : HttpVersion :=
  if version = "HTTP/1.0" then .Http10
  else if version = "HTTP/1.1" then .Http11
  else if version = "HTTP/2.0" then .Http20
  else .Unknown

/-- `impl Display for HttpVersion` from `src/http.rs` (`Unknown` renders as
the empty string). -/
def HttpVersion.render : HttpVersion → String
  | .Http10 => "HTTP/1.0"
  | .Http11 => "HTTP/1.1"
  | .Http20 => "HTTP/2.0"
  | .Unknown => ""

/-- `enum StatusCode` from `src/http.rs` (discriminants 200, 201, 400, 404,
500). -/
inductive StatusCode where
  | Ok | Created | BadRequest | NotFound | InternalServerError
  deriving DecidableEq, Repr

/-- The `#[repr(u16)]` discriminant of a `StatusCode` (`self.status_code as
u16` in the Rust source). -/
def StatusCode.toU16 : StatusCode → Nat
  | .Ok => 200
  | .Created => 201
  | .BadRequest => 400
  | .NotFound => 404
  | .InternalServerError => 500

/-- `StatusCode::from_u16` from `src/http.rs`, exactly as written there: the
match arms are 200, 400, 404, 500, and a default returning `None`. -/
def StatusCode.from_u16 (code : Nat) : Option StatusCode :=
  if code = 200 then some .Ok
  else if code = 400 then some .BadRequest
  else if code = 404 then some .NotFound
  else if code = 500 then some .InternalServerError
  else none

/-- `enum HttpRequestError` from `src/http.rs`. -/
inductive HttpRequestError where
  | BadRequest (msg : String)
  | InternalServerError (msg : String)
  | NotFound (msg : String)
  deriving DecidableEq, Repr

/-- `struct HttpRequest` from `src/http.rs`. -/
structure HttpRequest where
  method : HttpMethod
  target : String
  version : HttpVersion
  headers : Option HMap
  body : Option String
  deriving DecidableEq, Repr

/-- `struct HttpResponse` from `src/http.rs`. -/
structure HttpResponse where
  version : HttpVersion
  status_code : StatusCode
  reason : Option String
  headers : Option HMap
  body : Option String
  deriving DecidableEq, Repr

/-- `HttpResponse::new` from `src/http.rs`: the version is always HTTP/1.1. -/
def HttpResponse.new (status_code : StatusCode) (reason : Option String)
    (headers : Option HMap) (body : Option String) : HttpResponse :=
  { version := .Http11, status_code, reason, headers, body }

/-- `HttpResponse::ok` from `src/http.rs`. -/
def HttpResponse.mkOk (headers : Option HMap) (body : Option String) : HttpResponse :=
  HttpResponse.new .Ok (some "OK") headers body

/-- `HttpResponse::bad_request` from `src/http.rs`. -/
def HttpResponse.mkBadRequest (headers : Option HMap) (body : Option String) : HttpResponse :=
  HttpResponse.new .BadRequest (some "Bad Request") headers body

/-- `HttpResponse::not_found` from `src/http.rs`. -/
def HttpResponse.mkNotFound : HttpResponse :=
  HttpResponse.new .NotFound (some "Not Found") none none

/-- `HttpResponse::internal_server_error` from `src/http.rs`. -/
def HttpResponse.mkInternalServerError : HttpResponse :=
  HttpResponse.new .InternalServerError (some "Internal Server Error") none none

/-- `impl Display for HttpResponse` from `src/http.rs`: status line (with or
without a reason), a left fold producing one `name: value\r\n` line per header
entry, a terminating `\r\n` appended even for zero headers, then the body or
the empty string. -/
def HttpResponse.render (r : HttpResponse) : String :=
  let status_line :=
    match r.reason with
    | some reason =>
        r.version.render ++ " " ++ Nat.repr r.status_code.toU16 ++ " " ++ reason ++ "\r\n"
    | none =>
        r.version.render ++ " " ++ Nat.repr r.status_code.toU16 ++ "\r\n"
  let headers :=
    match r.headers with
    | some hs => hs.foldl (fun out kv => out ++ kv.1 ++ ": " ++ kv.2 ++ "\r\n") ""
    | none => ""
  let headers := headers ++ "\r\n"
  let body :=
    match r.body with
    | some body => body
    | none => ""
  status_line ++ headers ++ body

/-- `HttpResponse::as_bytes` from `src/http.rs`: the UTF-8 bytes of the
rendered string. -/
def HttpResponse.as_bytes (r : HttpResponse) : ByteArray :=
  r.render.toUTF8

/-- `impl TryFrom<Vec<String>> for HttpRequest` from `src/http.rs`:
empty input fails `BadRequest`; a request line not splitting (on `' '`) into
exactly three tokens fails `BadRequest`; otherwise the three tokens become
method, target, version, the header map is collected from the lines after the
first up to the first empty line via `split_once(": ")` (lines without the
separator are dropped by `filter_map`), and the body is the last input line. -/
def HttpRequest.tryFrom (data : List String) : Except HttpRequestError HttpRequest :=
  match data with
  | [] => .error (.BadRequest "request is malformed")
  | first :: rest =>
    let request_line := splitChar ' ' first
    if request_line.length ≠ 3 then
      .error (.BadRequest "request line is malformed")
    else
      .ok
        { method := HttpMethod.fromStr (request_line.getD 0 "")
          target := request_line.getD 1 ""
          version := HttpVersion.fromStr (request_line.getD 2 "")
          headers := some (hmFromList
            ((rest.takeWhile (fun s => !(s == ""))).filterMap (splitOnce ": ")))
          body := (first :: rest).getLast? }

/- ----------------------------------------------------------------- -/
/- Handlers (`src/http.rs`) and the dispatcher glue (`src/main.rs`). -/
/- ----------------------------------------------------------------- -/

/-- The result of running a handler that may tear down the task the way a Rust
`unwrap`/`expect` on a bad value does: `crash msg` models that outcome. -/
inductive HandlerOut where
  | ok (r : HttpResponse)
  | err (e : HttpRequestError)
  | crash (msg : String)
  deriving DecidableEq, Repr

/-- Abstraction of the filesystem used by the `/files/` handlers:
`read path` is `std::fs::read_to_string(path)` (`none` = read failure) and
`createOk path` says whether `File::create(path)` succeeds. `create_dir_all`
and `write_all` are assumed to succeed (their failures are `expect` crashes on
environment faults that no claim is about). -/
structure FileStore where
  read : String → Option String
  createOk : String → Bool

/-- `request.target.split('/').last()`, the segment-extraction step shared by
`get_file`, `post_file` and `echo` in `src/http.rs`. -/
def lastSeg (target : String) : Option String :=
  (splitChar '/' target).getLast?

/-- `HttpResponse::get_file` from `src/http.rs`: extract the final `/` segment
(`BadRequest` when absent), read `directory ++ segment` (`NotFound` on
failure), else 200 OK with octet-stream headers and the file as body. -/
def HttpResponse.get_file (request : HttpRequest) (directory : String)
    (fs : FileStore) : Except HttpRequestError HttpResponse :=
  match lastSeg request.target with
  | none => .error (.BadRequest "could not extract file location")
  | some file_loc =>
    match fs.read (directory ++ file_loc) with
    | none =>
      .error (.NotFound ("failed to read file " ++ file_loc ++ " in dir " ++ directory))
    | some file =>
      .ok (HttpResponse.new .Ok (some "OK")
        (some (hmFromList
          [("Content-Type", "application/octet-stream"),
           ("Content-Length", Nat.repr (utf8Len file))]))
        (some file))

/-- `HttpResponse::post_file` from `src/http.rs`: extract the final `/`
segment (`BadRequest` when absent), `File::create(directory ++ name)`
(`InternalServerError` on failure), then write
`request.body.as_ref().unwrap()` — which crashes when the body is `None` —
and answer 201 Created with no headers and no body. -/
def HttpResponse.post_file (request : HttpRequest) (directory : String)
    (fs : FileStore) : HandlerOut :=
  match lastSeg request.target with
  | none => .err (.BadRequest "could not extract file name")
  | some file_name =>
    if fs.createOk (directory ++ file_name) then
      match request.body with
      | some _ => .ok (HttpResponse.new .Created (some "Created") none none)
      | none => .crash "couldnt write body to file"
    else
      .err (.InternalServerError "could not create file")

/-- `HttpResponse::echo` from `src/http.rs`: the final `/` segment of the
target becomes the body of a 200 OK with `Content-Type: text/plain` and
`Content-Length`; when no segment exists the `context(..).unwrap()` crashes. -/
def HttpResponse.echo (request : HttpRequest) : HandlerOut :=
  match lastSeg request.target with
  | none => .crash "could not get last element of /echo/ endpoint"
  | some res_body =>
    .ok (HttpResponse.new .Ok (some "OK")
      (some (hmFromList
        [("Content-Type", "text/plain"),
         ("Content-Length", Nat.repr (utf8Len res_body))]))
      (some res_body))

/-- `HttpResponse::user_agent` from `src/http.rs`: `BadRequest` when the
request has no header map or the map has no `User-Agent` entry (exact-match
lookup); else 200 OK with text/plain headers and the header value as body. -/
def HttpResponse.user_agent (request : HttpRequest) : Except HttpRequestError HttpResponse :=
  match request.headers with
  | none => .error (.BadRequest "missing headers")
  | some headers =>
    match hmGet headers "User-Agent" with
    | none => .error (.BadRequest "missing user-agent header")
    | some agent_header =>
      .ok (HttpResponse.new .Ok (some "OK")
        (some (hmFromList
          [("Content-Type", "text/plain"),
           ("Content-Length", Nat.repr (utf8Len agent_header))]))
        (some agent_header))

/-- The error-to-response mapping inside `handle_files` in `src/main.rs`. -/
def errResponse : HttpRequestError → HttpResponse
  | .BadRequest _ => HttpResponse.mkBadRequest none none
  | .InternalServerError _ => HttpResponse.mkInternalServerError
  | .NotFound _ => HttpResponse.mkNotFound

/-- `handle_files` from `src/main.rs`: branch on the method (GET reads, POST
writes, anything else 404) and map handler errors to error responses; a crash
in the handler propagates. -/
def handle_files (request : HttpRequest) (working_dir : String)
    (fs : FileStore) : HandlerOut :=
  match request.method with
  | .Get =>
    match HttpResponse.get_file request working_dir fs with
    | .ok res => .ok res
    | .error e => .ok (errResponse e)
  | .Post => HttpResponse.post_file request working_dir fs
  | _ => .ok HttpResponse.mkNotFound

/- ----------------------------------------------------------------- -/
/- Spec-side definitions used for refinement-style comparisons.      -/
/- ----------------------------------------------------------------- -/

/-- Result classifier: the parser failed with the `BadRequest` error kind. -/
def isBadReq : Except HttpRequestError HttpRequest → Bool
  | .error (.BadRequest _) => true
  | _ => false

/-- Result classifier: the parser succeeded. -/
def isOkE : Except HttpRequestError HttpRequest → Bool
  | .ok _ => true
  | .error _ => false

/-- Spec-side lookup discipline for duplicate header names: the value of the
last pair in `pairs` whose key is `k` (later occurrences take priority over
earlier ones — "last occurrence wins"). -/
def specLastOccurrence (pairs : List (String × String)) (k : String) : Option String :=
  match pairs with
  | [] => none
  | (k', v) :: ps =>
    match specLastOccurrence ps k with
    | some w => some w
    | none => if k = k' then some v else none

/-- Concatenation of a list of strings, used to state the spec's picture of
the header block as one `name: value\r\n` line per entry. -/
def strJoin : List String → String
  | [] => ""
  | s :: rest => s ++ strJoin rest

/-- The serialization shape the spec describes: status line (reason present or
not), then one `name: value\r\n` line per header entry, then a terminating
`\r\n` emitted even for zero headers, then the raw body with no trailing
terminator. -/
def specSerialize (r : HttpResponse) : String :=
  (match r.reason with
   | some reason =>
       r.version.render ++ " " ++ Nat.repr r.status_code.toU16 ++ " " ++ reason ++ "\r\n"
   | none =>
       r.version.render ++ " " ++ Nat.repr r.status_code.toU16 ++ "\r\n")
  ++ (match r.headers with
      | some hs => strJoin (hs.map (fun kv => kv.1 ++ ": " ++ kv.2 ++ "\r\n"))
      | none => "")
  ++ "\r\n"
  ++ (match r.body with
      | some b => b
      | none => "")

/- ----------------------------------------------------------------- -/
/- Helper lemmas.                                                    -/
/- ----------------------------------------------------------------- -/

theorem splitCharList_ne_nil (c : Char) (l : List Char) : splitCharList c l ≠ [] := by
  induction l with
  | nil => simp [splitCharList]
  | cons x xs ih =>
    simp only [splitCharList]
    split
    · simp
    · split
      · simp
      · simp

theorem lastSeg_isSome (s : String) : ∃ v, lastSeg s = some v := by
  have h1 : splitChar '/' s ≠ [] := by
    unfold splitChar
    simp only [ne_eq, List.map_eq_nil_iff]
    exact splitCharList_ne_nil '/' s.data
  unfold lastSeg
  cases hl : (splitChar '/' s).getLast? with
  | none =>
    rw [List.getLast?_eq_none_iff] at hl
    exact absurd hl h1
  | some v => exact ⟨v, rfl⟩

theorem hmGet_insert (m : HMap) (k' v k : String) :
    hmGet (hmInsert m k' v) k = if k = k' then some v else hmGet m k := by
  induction m with
  | nil => simp [hmInsert, hmGet]
  | cons p m ih =>
    obtain ⟨k₀, v₀⟩ := p
    by_cases h0 : k₀ = k'
    · subst h0
      by_cases hk : k = k₀ <;> simp [hmInsert, hmGet, hk]
    · by_cases hk : k = k₀ <;> by_cases hk' : k = k'
      · exact absurd (hk.symm.trans hk') h0
      · simp [hmInsert, hmGet, h0, hk, hk', ih]
      · subst hk'
        simp [hmInsert, hmGet, h0, hk, ih]
      · simp [hmInsert, hmGet, h0, hk, hk', ih]

theorem hmGet_foldl (pairs : List (String × String)) (m : HMap) (k : String) :
    hmGet (pairs.foldl (fun m kv => hmInsert m kv.1 kv.2) m) k =
      match specLastOccurrence pairs k with
      | some w => some w
      | none => hmGet m k := by
  induction pairs generalizing m with
  | nil => rfl
  | cons p ps ih =>
    obtain ⟨k', v⟩ := p
    simp only [List.foldl_cons, specLastOccurrence]
    rw [ih]
    cases h : specLastOccurrence ps k with
    | some w => rfl
    | none =>
      simp only [hmGet_insert]
      by_cases hk : k = k'
      · rw [if_pos hk, if_pos hk]
      · rw [if_neg hk, if_neg hk]

theorem hmGet_hmFromList (pairs : List (String × String)) (k : String) :
    hmGet (hmFromList pairs) k = specLastOccurrence pairs k := by
  unfold hmFromList
  rw [hmGet_foldl]
  cases h : specLastOccurrence pairs k with
  | some w => rfl
  | none => rfl

theorem hmFromList_pair (k1 v1 k2 v2 : String) (hne : k1 ≠ k2) :
    hmFromList [(k1, v1), (k2, v2)] = [(k1, v1), (k2, v2)] := by
  simp [hmFromList, hmInsert, hne]

theorem strJoin_foldl (hs : List (String × String)) (init : String) :
    hs.foldl (fun out kv => out ++ kv.1 ++ ": " ++ kv.2 ++ "\r\n") init
      = init ++ strJoin (hs.map (fun kv => kv.1 ++ ": " ++ kv.2 ++ "\r\n")) := by
  induction hs generalizing init with
  | nil =>
    apply String.ext
    simp [strJoin, String.data_append]
  | cons kv hs ih =>
    simp only [List.foldl_cons, List.map_cons, strJoin]
    rw [ih]
    apply String.ext
    simp [String.data_append]

theorem tryFrom_ok_shape (data : List String) (r : HttpRequest)
    (h : HttpRequest.tryFrom data = .ok r) :
    ∃ first rest, data = first :: rest ∧ (splitChar ' ' first).length = 3 ∧
      r = { method := HttpMethod.fromStr ((splitChar ' ' first).getD 0 "")
            target := (splitChar ' ' first).getD 1 ""
            version := HttpVersion.fromStr ((splitChar ' ' first).getD 2 "")
            headers := some (hmFromList
              ((rest.takeWhile (fun s => !(s == ""))).filterMap (splitOnce ": ")))
            body := (first :: rest).getLast? } := by
  cases data with
  | nil => simp [HttpRequest.tryFrom] at h
  | cons first rest =>
    by_cases h3 : (splitChar ' ' first).length = 3
    · refine ⟨first, rest, rfl, h3, ?_⟩
      simp only [HttpRequest.tryFrom] at h
      rw [if_neg (not_not_intro h3)] at h
      injection h with h
      exact h.symm
    · simp [HttpRequest.tryFrom, h3] at h

theorem tryFrom_err_of_bad_line (first : String) (rest : List String)
    (h3 : ¬(splitChar ' ' first).length = 3) :
    HttpRequest.tryFrom (first :: rest) = .error (.BadRequest "request line is malformed") := by
  simp only [HttpRequest.tryFrom]
  rw [if_pos h3]

/- ----------------------------------------------------------------- -/
/- Claim theorems.                                                   -/
/- ----------------------------------------------------------------- -/

/-- C1: the claim says `from_u16` and the `u16` cast are mutually inverse on
all five defined status codes. The code violates this at `Created`: the
discriminant of `Created` is 201, yet `from_u16 201` is `none` because the
match in `StatusCode::from_u16` has no arm for 201 (the other four codes do
round-trip). -/
theorem c1_from_u16_omits_created :
    StatusCode.toU16 .Created = 201 ∧
    StatusCode.from_u16 (StatusCode.toU16 .Created) = none ∧
    StatusCode.from_u16 200 = some .Ok ∧
    StatusCode.from_u16 400 = some .BadRequest ∧
    StatusCode.from_u16 404 = some .NotFound ∧
    StatusCode.from_u16 500 = some .InternalServerError :=
  ⟨rfl, rfl, rfl, rfl, rfl, rfl⟩

/-- C2 counterexample: the claim says the last input line becomes the body
only when it is not part of the header block. Here the last line `"Host: a"`
is a header line — it is parsed into the header map — and it still becomes
the body. -/
theorem c2_counterexample :
    HttpRequest.tryFrom ["GET / HTTP/1.1", "Host: a"] =
      .ok { method := .Get, target := "/", version := .Http11,
            headers := some [("Host", "a")], body := some "Host: a" } := rfl

/-- C2 (amended): for every input line sequence accepted by request parsing,
the last line of the input is taken as the request body unconditionally, even
when that line is a header line or the request line itself. -/
theorem c2_body_always_last_line (data : List String) (r : HttpRequest)
    (h : HttpRequest.tryFrom data = .ok r) : r.body = data.getLast? := by
  obtain ⟨first, rest, hdata, h3, hr⟩ := tryFrom_ok_shape data r h
  subst hdata
  rw [hr]

/-- Witness for the amended C2 at the single-line input
`["GET / HTTP/1.1"]`: the request line itself is taken as the body. -/
theorem c2_witness :
    HttpRequest.body
        { method := .Get, target := "/", version := .Http11,
          headers := some [], body := some "GET / HTTP/1.1" }
      = ["GET / HTTP/1.1"].getLast? :=
  c2_body_always_last_line ["GET / HTTP/1.1"]
    { method := .Get, target := "/", version := .Http11,
      headers := some [], body := some "GET / HTTP/1.1" } rfl

/-- C3: the claim says `post_file` on a `/files/` POST without a body returns
the `BadRequest` error kind without panicking. The code instead reaches
`request.body.as_ref().unwrap()` — after `File::create` succeeded — and the
unwrap of `None` tears the task down (`crash` in this model), both in the
handler itself and through `handle_files`. -/
theorem c3_post_file_crashes_on_missing_body :
    HttpResponse.post_file
        { method := .Post, target := "/files/foo.txt", version := .Http11,
          headers := some [], body := none }
        "/tmp/" { read := fun _ => none, createOk := fun _ => true }
      = .crash "couldnt write body to file" ∧
    handle_files
        { method := .Post, target := "/files/foo.txt", version := .Http11,
          headers := some [], body := none }
        "/tmp/" { read := fun _ => none, createOk := fun _ => true }
      = .crash "couldnt write body to file" :=
  ⟨rfl, rfl⟩

/-- C4: request parsing fails with `BadRequest` exactly when the input is
empty or the first line does not split into exactly three space-separated
tokens; and whenever the first line has exactly three tokens, parsing
succeeds and the resulting request's target is the second token verbatim. -/
theorem c4_badrequest_iff_and_target_verbatim (data : List String) :
    (isBadReq (HttpRequest.tryFrom data) = true ↔
      data = [] ∨ (splitChar ' ' (data.headD "")).length ≠ 3) ∧
    (∀ first rest, data = first :: rest → (splitChar ' ' first).length = 3 →
      ∃ r, HttpRequest.tryFrom data = .ok r ∧
        r.target = (splitChar ' ' first).getD 1 "") := by
  constructor
  · cases data with
    | nil => simp [HttpRequest.tryFrom, isBadReq]
    | cons first rest =>
      by_cases h3 : (splitChar ' ' first).length = 3
      · simp only [HttpRequest.tryFrom]
        rw [if_neg (not_not_intro h3)]
        simp [isBadReq, h3]
      · rw [tryFrom_err_of_bad_line first rest h3]
        simp [isBadReq, h3]
  · intro first rest hdata h3
    subst hdata
    refine ⟨{ method := HttpMethod.fromStr ((splitChar ' ' first).getD 0 "")
              target := (splitChar ' ' first).getD 1 ""
              version := HttpVersion.fromStr ((splitChar ' ' first).getD 2 "")
              headers := some (hmFromList
                ((rest.takeWhile (fun s => !(s == ""))).filterMap (splitOnce ": ")))
              body := (first :: rest).getLast? }, ?_, rfl⟩
    simp only [HttpRequest.tryFrom]
    rw [if_neg (not_not_intro h3)]

/-- Witness for C4 at `["GET /abc HTTP/1.1"]`: parsing succeeds and the
target is the second token `/abc`. -/
theorem c4_witness :
    ∃ r, HttpRequest.tryFrom ["GET /abc HTTP/1.1"] = .ok r ∧ r.target = "/abc" := by
  obtain ⟨r, h1, h2⟩ :=
    (c4_badrequest_iff_and_target_verbatim ["GET /abc HTTP/1.1"]).2
      "GET /abc HTTP/1.1" [] rfl (by decide)
  exact ⟨r, h1, h2⟩

/-- C6: every method token outside the closed verb set parses to the `NotImp`
(`Unimplemented`) fallback, every version token outside the known three parses
to `Unknown`, and whether parsing succeeds depends only on the shape of the
input (non-empty, three-token request line), never on the method or version
token being recognized. -/
theorem c6_unknown_tokens_fall_back (m v : String) (data : List String) :
    (m ≠ "GET" → m ≠ "POST" → m ≠ "PUT" → m ≠ "PATCH" → m ≠ "DELETE" →
      m ≠ "CONNECT" → m ≠ "HEAD" → m ≠ "OPTIONS" → m ≠ "TRACE" →
      HttpMethod.fromStr m = .NotImp) ∧
    (v ≠ "HTTP/1.0" → v ≠ "HTTP/1.1" → v ≠ "HTTP/2.0" →
      HttpVersion.fromStr v = .Unknown) ∧
    (isOkE (HttpRequest.tryFrom data) = true ↔
      ∃ first rest, data = first :: rest ∧ (splitChar ' ' first).length = 3) := by
  refine ⟨?_, ?_, ?_⟩
  · intro h1 h2 h3 h4 h5 h6 h7 h8 h9
    simp [HttpMethod.fromStr, h1, h2, h3, h4, h5, h6, h7, h8, h9]
  · intro h1 h2 h3
    simp [HttpVersion.fromStr, h1, h2, h3]
  · cases data with
    | nil => simp [HttpRequest.tryFrom, isOkE]
    | cons first rest =>
      by_cases h3 : (splitChar ' ' first).length = 3
      · simp only [HttpRequest.tryFrom]
        rw [if_neg (not_not_intro h3)]
        simp [isOkE, h3]
      · rw [tryFrom_err_of_bad_line first rest h3]
        simp [isOkE]
        intro hf
        exact h3 hf

/-- Witness for C6 at the unrecognized tokens `"BREW"` and `"HTTP/9.9"` and
the input `["BREW /x HTTP/9.9"]`, which still parses successfully. -/
theorem c6_witness :
    HttpMethod.fromStr "BREW" = .NotImp ∧
    HttpVersion.fromStr "HTTP/9.9" = .Unknown ∧
    isOkE (HttpRequest.tryFrom ["BREW /x HTTP/9.9"]) = true := by
  have h := c6_unknown_tokens_fall_back "BREW" "HTTP/9.9" ["BREW /x HTTP/9.9"]
  refine ⟨h.1 (by decide) (by decide) (by decide) (by decide) (by decide)
      (by decide) (by decide) (by decide) (by decide),
    h.2.1 (by decide) (by decide) (by decide),
    h.2.2.mpr ⟨"BREW /x HTTP/9.9", [], rfl, by decide⟩⟩

theorem user_agent_of_headers_none (req : HttpRequest)
    (hh : req.headers = none) :
    HttpResponse.user_agent req = .error (.BadRequest "missing headers") := by
  unfold HttpResponse.user_agent
  rw [hh]

theorem user_agent_of_lookup_none (req : HttpRequest) (hs : HMap)
    (hh : req.headers = some hs) (hu : hmGet hs "User-Agent" = none) :
    HttpResponse.user_agent req = .error (.BadRequest "missing user-agent header") := by
  unfold HttpResponse.user_agent
  simp only [hh, hu]

theorem user_agent_of_lookup_some (req : HttpRequest) (hs : HMap) (ua : String)
    (hh : req.headers = some hs) (hu : hmGet hs "User-Agent" = some ua) :
    HttpResponse.user_agent req =
      .ok (HttpResponse.new .Ok (some "OK")
        (some (hmFromList [("Content-Type", "text/plain"),
                           ("Content-Length", Nat.repr (utf8Len ua))]))
        (some ua)) := by
  unfold HttpResponse.user_agent
  simp only [hh, hu]

/-- C5: serializing a response produces the status line (with the reason when
present, without it otherwise), one `name: value\r\n` line per header entry,
a terminating `\r\n` emitted even for zero headers, and then the raw body
with no trailing terminator — i.e. the code's fold-based rendering equals the
spec's join-based layout, and `as_bytes` is its UTF-8 encoding. -/
theorem c5_render_matches_spec (r : HttpResponse) :
    r.render = specSerialize r ∧ r.as_bytes = (specSerialize r).toUTF8 := by
  have h : r.render = specSerialize r := by
    obtain ⟨ver, sc, reason, headers, body⟩ := r
    simp only [HttpResponse.render, specSerialize]
    cases headers with
    | none =>
      cases reason <;> cases body <;>
        (apply String.ext; simp [String.data_append, List.append_assoc])
    | some hs =>
      cases reason <;> cases body <;>
        (apply String.ext;
         simp [strJoin_foldl, String.data_append, List.append_assoc])
  exact ⟨h, by unfold HttpResponse.as_bytes; rw [h]⟩

/-- C7: for every accepted input, the request's header map is present and its
lookup at any name equals the last-occurrence-wins reading of the lines after
the first up to the first empty line, each split on the first `": "`, with
separator-less lines dropped. -/
theorem c7_header_map_last_wins (data : List String) (r : HttpRequest) (k : String)
    (h : HttpRequest.tryFrom data = .ok r) :
    ∃ hs, r.headers = some hs ∧
      hmGet hs k =
        specLastOccurrence
          (((data.drop 1).takeWhile (fun s => !(s == ""))).filterMap
            (splitOnce ": ")) k := by
  obtain ⟨first, rest, hdata, h3, hr⟩ := tryFrom_ok_shape data r h
  subst hdata
  subst hr
  exact ⟨_, rfl, hmGet_hmFromList _ k⟩

/-- Witness for C7 at `["GET / HTTP/1.1", "A: 1", "junk", "A: 2"]`: the
separator-less line `junk` is dropped and the duplicate name `A` resolves to
the later value `2`. -/
theorem c7_witness :
    ∃ hs,
      HttpRequest.headers
          { method := .Get, target := "/", version := .Http11,
            headers := some [("A", "2")], body := some "A: 2" }
        = some hs ∧
      hmGet hs "A" = some "2" := by
  obtain ⟨hs, h1, h2⟩ :=
    c7_header_map_last_wins ["GET / HTTP/1.1", "A: 1", "junk", "A: 2"]
      { method := .Get, target := "/", version := .Http11,
        headers := some [("A", "2")], body := some "A: 2" } "A" rfl
  exact ⟨hs, h1, h2⟩

/-- C8: for every request whose target has prefix `/echo/`, the echo handler
succeeds with 200 OK, `Content-Type: text/plain`, `Content-Length` equal to
the byte length of the final `/`-delimited segment of the target, and that
segment as body. A segment is always extractable (`lastSeg` is total on
split results), so the claim's `BadRequest`-on-no-segment clause is vacuously
satisfied: no dispatched request reaches that branch. -/
theorem c8_echo_returns_last_segment (req : HttpRequest)
    (h : strStarts req.target "/echo/" = true) :
    ∃ v, lastSeg req.target = some v ∧
      HttpResponse.echo req =
        .ok (HttpResponse.new .Ok (some "OK")
          (some [("Content-Type", "text/plain"),
                 ("Content-Length", Nat.repr (utf8Len v))])
          (some v)) := by
  obtain ⟨v, hv⟩ := lastSeg_isSome req.target
  refine ⟨v, hv, ?_⟩
  unfold HttpResponse.echo
  simp only [hv]
  rw [hmFromList_pair _ _ _ _ (by decide)]

/-- Witness for C8 at target `/echo/abc`: the handler answers 200 with body
`abc`. -/
theorem c8_witness :
    ∃ v, lastSeg "/echo/abc" = some v ∧
      HttpResponse.echo
          { method := .Get, target := "/echo/abc", version := .Http11,
            headers := some [], body := some "" }
        = .ok (HttpResponse.new .Ok (some "OK")
            (some [("Content-Type", "text/plain"),
                   ("Content-Length", Nat.repr (utf8Len v))])
            (some v)) :=
  c8_echo_returns_last_segment
    { method := .Get, target := "/echo/abc", version := .Http11,
      headers := some [], body := some "" } rfl

/-- C9: for every request with target exactly `/user-agent`, the user-agent
handler fails with `BadRequest` when the request has no header map or the map
has no `User-Agent` entry (exact-match lookup), and otherwise answers 200 OK
with `Content-Type: text/plain`, `Content-Length` equal to the byte length of
the `User-Agent` value, and that value as body. -/
theorem c9_user_agent_lookup (req : HttpRequest) (h : req.target = "/user-agent") :
    (req.headers = none →
      HttpResponse.user_agent req = .error (.BadRequest "missing headers")) ∧
    (∀ hs, req.headers = some hs → hmGet hs "User-Agent" = none →
      HttpResponse.user_agent req = .error (.BadRequest "missing user-agent header")) ∧
    (∀ hs ua, req.headers = some hs → hmGet hs "User-Agent" = some ua →
      HttpResponse.user_agent req =
        .ok (HttpResponse.new .Ok (some "OK")
          (some [("Content-Type", "text/plain"),
                 ("Content-Length", Nat.repr (utf8Len ua))])
          (some ua))) := by
  refine ⟨fun hh => user_agent_of_headers_none req hh,
    fun hs hh hu => user_agent_of_lookup_none req hs hh hu,
    fun hs ua hh hu => ?_⟩
  rw [user_agent_of_lookup_some req hs ua hh hu,
    hmFromList_pair _ _ _ _ (by decide)]

/-- Witness for C9 at a `/user-agent` request carrying
`User-Agent: curl/8.6.0`: the handler answers 200 with that value as body and
`Content-Length: 10`. -/
theorem c9_witness :
    HttpResponse.user_agent
        { method := .Get, target := "/user-agent", version := .Http11,
          headers := some [("User-Agent", "curl/8.6.0")], body := some "" }
      = .ok (HttpResponse.new .Ok (some "OK")
          (some [("Content-Type", "text/plain"), ("Content-Length", "10")])
          (some "curl/8.6.0")) :=
  (c9_user_agent_lookup
      { method := .Get, target := "/user-agent", version := .Http11,
        headers := some [("User-Agent", "curl/8.6.0")], body := some "" } rfl).2.2
    [("User-Agent", "curl/8.6.0")] "curl/8.6.0" rfl rfl

/-- C10: every request produced by successful parsing has `headers = Some map`
and `body = Some line`; consequently, on such requests the user-agent
handler's "missing headers" branch cannot be the outcome and the POST file
handler can never hit the missing-body unwrap (modelled as its `crash`
outcome), for any directory and filesystem. -/
theorem c10_parser_wraps_headers_and_body (data : List String) (r : HttpRequest)
    (h : HttpRequest.tryFrom data = .ok r) :
    (∃ hs, r.headers = some hs) ∧ (∃ b, r.body = some b) ∧
    HttpResponse.user_agent r ≠ .error (.BadRequest "missing headers") ∧
    (∀ dir fs, HttpResponse.post_file r dir fs ≠ .crash "couldnt write body to file") := by
  obtain ⟨first, rest, hdata, h3, hr⟩ := tryFrom_ok_shape data r h
  subst hdata
  subst hr
  refine ⟨⟨_, rfl⟩, ?_, ?_, ?_⟩
  · cases hb : (first :: rest).getLast? with
    | none =>
      rw [List.getLast?_eq_none_iff] at hb
      exact absurd hb (by simp)
    | some b => exact ⟨b, rfl⟩
  · intro hcontra
    cases hu : hmGet (hmFromList
        ((rest.takeWhile (fun s => !(s == ""))).filterMap (splitOnce ": ")))
        "User-Agent" with
    | none =>
      rw [user_agent_of_lookup_none _ _ rfl hu] at hcontra
      injection hcontra with hmsg
      injection hmsg with hmsg
      exact absurd hmsg (by decide)
    | some ua =>
      rw [user_agent_of_lookup_some _ _ ua rfl hu] at hcontra
      exact absurd hcontra (by simp)
  · intro dir fs hcontra
    unfold HttpResponse.post_file at hcontra
    obtain ⟨v, hv⟩ := lastSeg_isSome ((splitChar ' ' first).getD 1 "")
    simp only [hv] at hcontra
    cases hb : (first :: rest).getLast? with
    | none =>
      rw [List.getLast?_eq_none_iff] at hb
      exact absurd hb (by simp)
    | some b =>
      simp only [hb] at hcontra
      by_cases hc : fs.createOk (dir ++ v)
      · rw [if_pos hc] at hcontra
        simp at hcontra
      · rw [if_neg hc] at hcontra
        simp at hcontra

/-- Witness for C10 at the parsed single-line request
`["GET / HTTP/1.1"]`. -/
theorem c10_witness :
    (∃ hs,
      HttpRequest.headers
        { method := .Get, target := "/", version := .Http11,
          headers := some [], body := some "GET / HTTP/1.1" } = some hs) ∧
    (∃ b,
      HttpRequest.body
        { method := .Get, target := "/", version := .Http11,
          headers := some [], body := some "GET / HTTP/1.1" } = some b) ∧
    HttpResponse.user_agent
        { method := .Get, target := "/", version := .Http11,
          headers := some [], body := some "GET / HTTP/1.1" }
      ≠ .error (.BadRequest "missing headers") ∧
    (∀ dir fs,
      HttpResponse.post_file
          { method := .Get, target := "/", version := .Http11,
            headers := some [], body := some "GET / HTTP/1.1" }
          dir fs
        ≠ .crash "couldnt write body to file") :=
  c10_parser_wraps_headers_and_body ["GET / HTTP/1.1"]
    { method := .Get, target := "/", version := .Http11,
      headers := some [], body := some "GET / HTTP/1.1" } rfl
